import Mathlib

/-!
Verification of `organize_and_rename_files.py`.

This file gives a shallow embedding of the script's date-resolution and file
placement pipeline, and proves (or refutes) the specification claims about it.
External collaborators (the EXIF library, the ffprobe subprocess, the
filesystem) are modelled as oracle data supplied to the pure functions; the
script's own logic (regex search, validation, string formatting, path
construction, classification, routing) is translated faithfully from the
Python source.

Conventions of the embedding:
* `datetime.datetime(y, m, d, h, mi, s)` is modelled by `mkDatetime`, which
  returns `none` exactly when the constructor would raise `ValueError`
  (fields outside the documented ranges, including the year range 1..9999
  and day-of-month validity with leap years).
* `strftime "%Y"` / `"%Y-%m-%d %H.%M.%S"` are modelled with zero-padded
  fixed-width decimal fields (`0001`..`9999` for `%Y`), following the
  documented format-code table.
* Python `re.search` returns the leftmost match; `searchA`/`searchB` scan
  positions left to right accordingly.  `\d` is modelled as the ASCII digits
  (the filenames of interest are ASCII).
* Paths use POSIX separators, matching `os.path` on the script's target.
-/

/-! ## Calendar timestamps (`datetime.datetime`) -/

/-- A calendar date-time as carried by a Python `datetime` value restricted to
the fields the script uses (no sub-second or timezone component). -/
structure Timestamp where
  year : Nat
  month : Nat
  day : Nat
  hour : Nat
  minute : Nat
  second : Nat
deriving DecidableEq, Repr

/-- Gregorian leap-year rule used by `datetime`. -/
def isLeap (y : Nat) : Bool :=
  (y % 4 == 0 && y % 100 != 0) || (y % 400 == 0)

/-- Number of days in a month, as validated by `datetime.datetime`. -/
def daysInMonth (y m : Nat) : Nat :=
  if m == 2 then (if isLeap y then 29 else 28)
  else if m == 4 || m == 6 || m == 9 || m == 11 then 30
  else 31

/-- The argument ranges accepted by the `datetime.datetime` constructor. -/
def Timestamp.valid (t : Timestamp) : Bool :=
  1 ≤ t.year && t.year ≤ 9999 &&
  1 ≤ t.month && t.month ≤ 12 &&
  1 ≤ t.day && t.day ≤ daysInMonth t.year t.month &&
  t.hour ≤ 23 && t.minute ≤ 59 && t.second ≤ 59

/-- `datetime.datetime(y, m, d, h, mi, s)`: `some` on valid fields, `none`
models the `ValueError` the script catches. -/
def mkDatetime (y m d h mi s : Nat) : Option Timestamp :=
  let t : Timestamp := ⟨y, m, d, h, mi, s⟩
  if t.valid then some t else none

/-! ## Digit strings -/

/-- `int` applied to a string of decimal digit characters. -/
def toNatDigits (l : List Char) : Nat :=
  l.foldl (fun n c => n * 10 + (c.toNat - 48)) 0

/-! ## Filename date parser (`parse_date_from_filename`) -/

/-- Try to match `\d{8}_\d{6}` at the start of `l`, returning the two groups. -/
def tryA (l : List Char) : Option (List Char × List Char) :=
  let p1 := l.take 8
  let rest := l.drop 8
  if p1.length == 8 && p1.all Char.isDigit then
    match rest with
    | '_' :: rest2 =>
      let p2 := rest2.take 6
      if p2.length == 6 && p2.all Char.isDigit then some (p1, p2) else none
    | _ => none
  else none

/-- `re.search(r"(\d{8})_(\d{6})", ·)`: leftmost match, scanning start
positions left to right. -/
def searchA : List Char → Option (List Char × List Char)
  | [] => none
  | c :: cs =>
    match tryA (c :: cs) with
    | some r => some r
    | none => searchA cs

/-- Try to match `\d{14}` at the start of `l`. -/
def tryB (l : List Char) : Option (List Char) :=
  let p := l.take 14
  if p.length == 14 && p.all Char.isDigit then some p else none

/-- `re.search(r"(\d{14})", ·)`: leftmost match. -/
def searchB : List Char → Option (List Char)
  | [] => none
  | c :: cs =>
    match tryB (c :: cs) with
    | some r => some r
    | none => searchB cs

/-- The six fields the script slices out of a pattern-A match
(`part1[:4]`, `part1[4:6]`, `part1[6:8]`, `part2[:2]`, `part2[2:4]`,
`part2[4:6]`). -/
def fieldsA (p1 p2 : List Char) : Timestamp :=
  ⟨toNatDigits (p1.take 4), toNatDigits ((p1.drop 4).take 2),
   toNatDigits (p1.drop 6), toNatDigits (p2.take 2),
   toNatDigits ((p2.drop 2).take 2), toNatDigits (p2.drop 4)⟩

/-- The six fields sliced out of a 14-digit pattern-B match. -/
def fieldsB (ds : List Char) : Timestamp :=
  ⟨toNatDigits (ds.take 4), toNatDigits ((ds.drop 4).take 2),
   toNatDigits ((ds.drop 6).take 2), toNatDigits ((ds.drop 8).take 2),
   toNatDigits ((ds.drop 10).take 2), toNatDigits (ds.drop 12)⟩

/-- `parse_date_from_filename`: pattern A (`\d{8}_\d{6}`) first; on no match
or `ValueError`, fall through to pattern B (`\d{14}`); else `None`. -/
def parse_date_from_filename (filename : String) : Option Timestamp :=
  let l := filename.data
  let viaA : Option Timestamp :=
    match searchA l with
    | some (p1, p2) =>
      let t := fieldsA p1 p2
      mkDatetime t.year t.month t.day t.hour t.minute t.second
    | none => none
  match viaA with
  | some t => some t
  | none =>
    match searchB l with
    | some ds =>
      let t := fieldsB ds
      mkDatetime t.year t.month t.day t.hour t.minute t.second
    | none => none

/-- Whether some position of `l` starts a `\d{8}_\d{6}` match whose fields
form a valid calendar date-time (the hypothesis of claim C1, which quantifies
over matches anywhere in the string). -/
def hasValidA : List Char → Bool
  | [] => false
  | c :: cs =>
    (match tryA (c :: cs) with
     | some (p1, p2) => (fieldsA p1 p2).valid
     | none => false) || hasValidA cs

/-- Whether some position of `l` starts a 14-digit run whose fields form a
valid calendar date-time. -/
def hasValidB : List Char → Bool
  | [] => false
  | c :: cs =>
    (match tryB (c :: cs) with
     | some ds => (fieldsB ds).valid
     | none => false) || hasValidB cs

example : searchA "IMG_20230809_162453".data = some ("20230809".data, "162453".data) := by decide
example : parse_date_from_filename "IMG_20230809_162453" = some ⟨2023, 8, 9, 16, 24, 53⟩ := by decide
example : parse_date_from_filename "20230809162453" = some ⟨2023, 8, 9, 16, 24, 53⟩ := by decide
example : parse_date_from_filename "hello" = none := by decide
example : parse_date_from_filename "99999999_999999x20230809_162453" = none := by decide
example : hasValidA "99999999_999999x20230809_162453".data = true := by decide
example : parse_date_from_filename "20231301_162453_20230809162453" = some ⟨2023, 8, 9, 16, 24, 53⟩ := by decide
example : parse_date_from_filename "20231301_162453_99999999999999_20230809162453" = none := by decide
example : hasValidB "20231301_162453_99999999999999_20230809162453".data = true := by decide

/-! ## Destination filename generation (`generate_new_file_name`) -/

/-- The character of a single decimal digit. -/
def digitChar (n : Nat) : Char := Char.ofNat (48 + n)

/-- Fixed-width zero-padded decimal rendering, most significant digit first:
`padDigits k n` is the `k`-character numeral of `n` (for `n < 10 ^ k`). -/
def padDigits : Nat → Nat → List Char
  | 0, _ => []
  | k + 1, n => digitChar (n / 10 ^ k) :: padDigits k (n % 10 ^ k)

/-- `%Y` etc.: four-digit zero-padded field. -/
def pad4 (n : Nat) : List Char := padDigits 4 n

/-- `%m`, `%d`, `%H`, `%M`, `%S`: two-digit zero-padded fields. -/
def pad2 (n : Nat) : List Char := padDigits 2 n

/-- `date_obj.strftime("%Y-%m-%d %H.%M.%S")` as a character list. -/
def strftime_name (t : Timestamp) : List Char :=
  pad4 t.year ++ ['-'] ++ pad2 t.month ++ ['-'] ++ pad2 t.day ++ [' '] ++
  pad2 t.hour ++ ['.'] ++ pad2 t.minute ++ ['.'] ++ pad2 t.second

/-- `generate_new_file_name`: the strftime rendering plus the extension. -/
def generate_new_file_name (date_obj : Timestamp) (file_ext : String) : String :=
  ⟨strftime_name date_obj ++ file_ext.data⟩

/-- `date_taken.strftime("%Y")`: the year folder name. -/
def strftimeY (t : Timestamp) : String := ⟨pad4 t.year⟩

example : generate_new_file_name ⟨2023, 8, 9, 16, 24, 53⟩ ".jpg" = "2023-08-09 16.24.53.jpg" := by decide
example : strftimeY ⟨2023, 8, 9, 16, 24, 53⟩ = "2023" := by decide

/-! ## Video creation-time normalization (`get_video_ffprobe_date`) -/

/-- The normalization in `get_video_ffprobe_date`:
`creation_str.replace('Z', '').replace('T', ' ')[:19]`. -/
def normalize_creation (s : String) : String :=
  ⟨((s.data.filter (fun c => c ≠ 'Z')).map (fun c => if c = 'T' then ' ' else c)).take 19⟩

/-- `datetime.datetime.strptime(s, "%Y-%m-%d %H:%M:%S")` on the fixed-width
19-character shape the normalized probe value has: `some` on a full-width
match with valid calendar fields, `none` models the `ValueError` the script
catches. -/
def strptime19 (s : String) : Option Timestamp :=
  match s.data with
  | [y1, y2, y3, y4, '-', m1, m2, '-', d1, d2, ' ', h1, h2, ':', n1, n2, ':', s1, s2] =>
    if ([y1, y2, y3, y4, m1, m2, d1, d2, h1, h2, n1, n2, s1, s2]).all Char.isDigit then
      mkDatetime (toNatDigits [y1, y2, y3, y4]) (toNatDigits [m1, m2]) (toNatDigits [d1, d2])
        (toNatDigits [h1, h2]) (toNatDigits [n1, n2]) (toNatDigits [s1, s2])
    else none
  | _ => none

/-- The outcome of the ffprobe subprocess, as far as the script inspects it:
the exit status and the parsed `format.tags.creation_time` entry (absent when
the JSON has no such entry). -/
structure ProbeResult where
  returncode : Int
  creation_time : Option String
deriving Repr

/-- `get_video_ffprobe_date` after the subprocess call: non-zero exit or an
absent/empty tag gives `None`; otherwise normalize and parse (a parse failure
is caught and gives `None`). -/
def get_video_ffprobe_date (r : ProbeResult) : Option Timestamp :=
  if r.returncode ≠ 0 then none
  else
    match r.creation_time with
    | none => none
    | some s => if s = "" then none else strptime19 (normalize_creation s)

example : get_video_ffprobe_date ⟨0, some "2023-08-09T16:24:53.000000Z"⟩ = some ⟨2023, 8, 9, 16, 24, 53⟩ := by decide
example : get_video_ffprobe_date ⟨1, some "2023-08-09T16:24:53.000000Z"⟩ = none := by decide
example : get_video_ffprobe_date ⟨0, none⟩ = none := by decide

/-! ## Paths (`os.path` on a POSIX system) -/

/-- `os.path.basename`: everything after the last `/`. -/
def basenameL (l : List Char) : List Char :=
  (l.reverse.takeWhile (fun c => c ≠ '/')).reverse

/-- `os.path.basename` on strings. -/
def basename (p : String) : String := ⟨basenameL p.data⟩

/-- `os.path.join a b` for a non-absolute `b`: insert a separator unless `a`
is empty or already ends in one; an absolute `b` replaces `a`. -/
def joinPath (a b : String) : String :=
  if b.data.head? = some '/' then b
  else if a.data = [] || a.data.getLast? = some '/' then ⟨a.data ++ b.data⟩
  else ⟨a.data ++ '/' :: b.data⟩

/-- `os.path.splitext(p)[1]`: the extension of the final path component; a
component whose only dots are leading (a hidden file such as `.jpg`) has no
extension. -/
def extOf (p : String) : String :=
  let b := basenameL p.data
  let rest := b.dropWhile (fun c => c = '.')
  let extRev := rest.reverse.takeWhile (fun c => c ≠ '.')
  if extRev.length = rest.length then "" else ⟨'.' :: extRev.reverse⟩

/-- `os.path.splitext(os.path.basename(p))[0]`: the final component with its
extension removed. -/
def stemOf (p : String) : String :=
  let b := basenameL p.data
  ⟨b.take (b.length - (extOf p).data.length)⟩

/-- ASCII lower-casing of one character (`str.lower` on the path strings the
script handles). -/
def lowerChar (c : Char) : Char :=
  if 'A' ≤ c && c ≤ 'Z' then Char.ofNat (c.toNat + 32) else c

/-- `str.lower`. -/
def lowerStr (s : String) : String := ⟨s.data.map lowerChar⟩

/-- `str.endswith(suffix)`. -/
def endsWith (p suffix : String) : Bool := suffix.data.isSuffixOf p.data

/-- `str.endswith(tuple)`: true when some listed suffix matches. -/
def endsWithAny (p : String) (suffixes : List String) : Bool :=
  suffixes.any (fun s => endsWith p s)

example : basename "/a/b/c.jpg" = "c.jpg" := by decide
example : extOf "/a/b/c.JPG" = ".JPG" := by decide
example : extOf "/a/b/.jpg" = "" := by decide
example : extOf "/a/b/archive.tar.gz" = ".gz" := by decide
example : stemOf "/a/b/IMG_001.jpg" = "IMG_001" := by decide
example : stemOf "/a/b/.jpg" = ".jpg" := by decide
example : joinPath "/org" "2023" = "/org/2023" := by decide
example : endsWithAny (lowerStr "/a/b/c.JPG") [".jpg", ".jpeg"] = true := by decide

/-! ## Pipeline model

The three configured roots are the script's `SOURCE_FOLDER`,
`ORGANIZED_FOLDER`, `SKIPPED_FOLDER` globals, passed explicitly.  A
discovered file carries, besides its path, the values the two metadata
readers would produce for it (`get_image_exif_date` returns a parsed
`DateTimeOriginal` datetime or `None`; the ffprobe reader likewise), and its
filesystem modification time, which the script never reads. -/

structure Config where
  source : String
  organized : String
  skipped : String

structure MFile where
  path : String
  exifDate : Option Timestamp
  probe : ProbeResult
  mtime : Nat

/-- What the script does with one file: move it to an organized destination,
or move it to the skip folder with a logged reason. -/
inductive FileAction where
  | moveTo (dest : String)
  | skipped (dest : String) (reason : String)
deriving DecidableEq, Repr

/-- The result of `process_file`, together with which metadata readers were
invoked along the way. -/
structure ProcessResult where
  action : FileAction
  exifCalled : Bool
  probeCalled : Bool
deriving DecidableEq, Repr

/-- `move_to_skipped`: the destination is `SKIPPED_FOLDER` joined with the
file's basename (the original name, unchanged). -/
def move_to_skipped (cfg : Config) (file_path : String) (reason : String) : FileAction :=
  .skipped (joinPath cfg.skipped (basename file_path)) reason

/-- The image resolver: EXIF date, else the filename parser on the stem. -/
def imageResolved (f : MFile) : Option Timestamp :=
  match f.exifDate with
  | some t => some t
  | none => parse_date_from_filename (stemOf f.path)

/-- The video resolver: ffprobe creation time, else the filename parser on
the stem. -/
def videoResolved (f : MFile) : Option Timestamp :=
  match get_video_ffprobe_date f.probe with
  | some t => some t
  | none => parse_date_from_filename (stemOf f.path)

/-- `organize_images`: resolve, then either move to
`ORGANIZED_FOLDER/<strftime "%Y">/<generated name>` or skip. -/
def organize_images (cfg : Config) (f : MFile) : ProcessResult :=
  match imageResolved f with
  | none => ⟨move_to_skipped cfg f.path "No date from EXIF or filename", true, false⟩
  | some date_taken =>
    let target_folder := joinPath cfg.organized (strftimeY date_taken)
    let new_file_name := generate_new_file_name date_taken (extOf f.path)
    ⟨.moveTo (joinPath target_folder new_file_name), true, false⟩

/-- `organize_videos`: same placement logic with the ffprobe resolver. -/
def organize_videos (cfg : Config) (f : MFile) : ProcessResult :=
  match videoResolved f with
  | none => ⟨move_to_skipped cfg f.path "No date from ffprobe or filename", false, true⟩
  | some date_taken =>
    let target_folder := joinPath cfg.organized (strftimeY date_taken)
    let new_file_name := generate_new_file_name date_taken (extOf f.path)
    ⟨.moveTo (joinPath target_folder new_file_name), false, true⟩

def imageSuffixes : List String := [".jpg", ".jpeg", ".png", ".gif", ".heic"]

def videoSuffixes : List String := [".mp4", ".mov", ".avi", ".mkv"]

/-- `process_file`: classify by `file_path.lower().endswith(...)` and
dispatch; anything else goes straight to skip with reason
`"Unsupported file type"`, invoking no reader. -/
def process_file (cfg : Config) (f : MFile) : ProcessResult :=
  let lower := lowerStr f.path
  if endsWithAny lower imageSuffixes then organize_images cfg f
  else if endsWithAny lower videoSuffixes then organize_videos cfg f
  else ⟨move_to_skipped cfg f.path "Unsupported file type", false, false⟩

/-- The media class `process_file` assigns, and the resolution outcome of the
date-resolution pipeline for a file: the resolver of its class, `none` for
unsupported files (the `Unresolved` outcome). -/
def resolutionOf (f : MFile) : Option Timestamp :=
  if endsWithAny (lowerStr f.path) imageSuffixes then imageResolved f
  else if endsWithAny (lowerStr f.path) videoSuffixes then videoResolved f
  else none

/-- The source tree as the traversal sees it: whether the configured source
root exists, and the regular files `os.walk` yields under it when it does.
`os.walk` on a non-existent root raises inside its `scandir` call, which the
default `onerror=None` swallows, so it yields no directories at all. -/
structure SourceFS where
  rootExists : Bool
  files : List MFile

/-- The observable outcome of one run of `main`: the per-file results in
order, and whether the run reached the final message normally.  `main`
performs no check of `SOURCE_FOLDER`; each file is processed inside a
`try/except` that logs and continues, so the run always completes. -/
structure RunTrace where
  results : List (String × ProcessResult)
  completed : Bool
deriving DecidableEq, Repr

/-- `main`: walk the source root and process every file. -/
def mainRun (cfg : Config) (fs : SourceFS) : RunTrace :=
  let walked := if fs.rootExists then fs.files else []
  ⟨walked.map (fun f => (f.path, process_file cfg f)), true⟩

example :
    process_file ⟨"/src", "/org", "/skip"⟩ ⟨"/src/a.txt", none, ⟨1, none⟩, 5⟩ =
      ⟨.skipped "/skip/a.txt" "Unsupported file type", false, false⟩ := by decide
example :
    process_file ⟨"/src", "/org", "/skip"⟩
        ⟨"/src/IMG_20230809_162453.JPG", none, ⟨1, none⟩, 5⟩ =
      ⟨.moveTo "/org/2023/2023-08-09 16.24.53.JPG", true, false⟩ := by decide
example :
    process_file ⟨"/src", "/org", "/skip"⟩ ⟨"/src/.jpg", none, ⟨1, none⟩, 5⟩ =
      ⟨.skipped "/skip/.jpg" "No date from EXIF or filename", true, false⟩ := by decide
example :
    process_file ⟨"/src", "/org", "/skip"⟩
        ⟨"/src/clip.mov", none, ⟨0, some "2023-08-09T16:24:53.000000Z"⟩, 5⟩ =
      ⟨.moveTo "/org/2023/2023-08-09 16.24.53.mov", false, true⟩ := by decide
example :
    mainRun ⟨"/nowhere", "/org", "/skip"⟩ ⟨false, [⟨"/nowhere/a.jpg", none, ⟨1, none⟩, 5⟩]⟩ =
      ⟨[], true⟩ := by decide

/-! ## Chronological order and lexicographic order -/

/-- `t1` is chronologically strictly before `t2`: lexicographic comparison of
the calendar fields, most significant first (this is the order of the
instants the fields denote). -/
def tsLt (t1 t2 : Timestamp) : Prop :=
  t1.year < t2.year ∨ (t1.year = t2.year ∧
  (t1.month < t2.month ∨ (t1.month = t2.month ∧
  (t1.day < t2.day ∨ (t1.day = t2.day ∧
  (t1.hour < t2.hour ∨ (t1.hour = t2.hour ∧
  (t1.minute < t2.minute ∨ (t1.minute = t2.minute ∧
  t1.second < t2.second)))))))))

instance (t1 t2 : Timestamp) : Decidable (tsLt t1 t2) := by
  unfold tsLt
  infer_instance

/-- Lexicographic comparison of characters lists with distinct or equal
heads. -/
lemma lex_cons_iff (a b : Char) (as bs : List Char) :
    List.Lex (· < ·) (a :: as) (b :: bs) ↔ a < b ∨ (a = b ∧ List.Lex (· < ·) as bs) := by
  constructor
  · intro h
    cases h with
    | rel h => exact Or.inl h
    | cons h => exact Or.inr ⟨rfl, h⟩
  · rintro (h | ⟨rfl, h⟩)
    · exact List.Lex.rel h
    · exact List.Lex.cons h

lemma lex_irrefl (l : List Char) : ¬ List.Lex (· < ·) l l := by
  induction l with
  | nil => exact List.Lex.not_nil_right _ _
  | cons c cs ih =>
    intro h
    rcases (lex_cons_iff c c cs cs).mp h with h' | ⟨_, h'⟩
    · exact lt_irrefl c h'
    · exact ih h'

/-- Appending after equal-length prefixes: comparison is decided by the
prefixes unless they are equal. -/
lemma lex_append_iff (xs : List Char) :
    ∀ (ys as bs : List Char), xs.length = ys.length →
      (List.Lex (· < ·) (xs ++ as) (ys ++ bs) ↔
        List.Lex (· < ·) xs ys ∨ (xs = ys ∧ List.Lex (· < ·) as bs)) := by
  induction xs with
  | nil =>
    intro ys as bs hlen
    cases ys with
    | nil => simp [List.Lex.not_nil_right]
    | cons y ys' => simp at hlen
  | cons x xs' ih =>
    intro ys as bs hlen
    cases ys with
    | nil => simp at hlen
    | cons y ys' =>
      simp only [List.length_cons, Nat.succ.injEq] at hlen
      simp only [List.cons_append]
      rw [lex_cons_iff, lex_cons_iff, ih ys' as bs hlen]
      constructor
      · rintro (h | ⟨rfl, h' | ⟨rfl, h⟩⟩)
        · exact Or.inl (Or.inl h)
        · exact Or.inl (Or.inr ⟨rfl, h'⟩)
        · exact Or.inr ⟨rfl, h⟩
      · rintro ((h | ⟨rfl, h'⟩) | ⟨heq, h⟩)
        · exact Or.inl h
        · exact Or.inr ⟨rfl, Or.inl h'⟩
        · rcases List.cons.injEq .. ▸ heq with ⟨rfl, rfl⟩
          exact Or.inr ⟨rfl, Or.inr ⟨rfl, h⟩⟩

lemma digitChar_lt_iff : ∀ m ≤ 9, ∀ n ≤ 9, (digitChar m < digitChar n ↔ m < n) := by decide

lemma digitChar_inj : ∀ m ≤ 9, ∀ n ≤ 9, (digitChar m = digitChar n ↔ m = n) := by decide

lemma digitChar_isDigit : ∀ n ≤ 9, (digitChar n).isDigit = true := by decide

lemma padDigits_length (k n : Nat) : (padDigits k n).length = k := by
  induction k generalizing n with
  | zero => rfl
  | succ k ih => simp [padDigits, ih]

/-- Splitting a natural below `q * 10` into its leading digit and remainder
orders pairs lexicographically. -/
lemma decomp_lt_iff {q A B ra rb : Nat} (hra : ra < q) (hrb : rb < q) :
    A * q + ra < B * q + rb ↔ (A < B ∨ (A = B ∧ ra < rb)) := by
  constructor
  · intro h
    rcases Nat.lt_trichotomy A B with h' | h' | h'
    · exact Or.inl h'
    · subst h'
      exact Or.inr ⟨rfl, Nat.lt_of_add_lt_add_left h⟩
    · exfalso
      have hle : B * q + rb < A * q := by
        calc B * q + rb < B * q + q := by omega
          _ = (B + 1) * q := by ring
          _ ≤ A * q := Nat.mul_le_mul_right q h'
      omega
  · rintro (h' | ⟨rfl, h'⟩)
    · calc A * q + ra < A * q + q := by omega
        _ = (A + 1) * q := by ring
        _ ≤ B * q := Nat.mul_le_mul_right q h'
        _ ≤ B * q + rb := Nat.le_add_right _ _
    · exact Nat.add_lt_add_left h' _

lemma div_pow_le_nine {k a : Nat} (ha : a < 10 ^ (k + 1)) : a / 10 ^ k ≤ 9 := by
  have hq : 0 < 10 ^ k := Nat.pos_pow_of_pos k (by norm_num)
  have : a / 10 ^ k < 10 := by
    rw [Nat.div_lt_iff_lt_mul hq]
    calc a < 10 ^ (k + 1) := ha
      _ = 10 * 10 ^ k := by ring
  omega

/-- Zero-padded fixed-width numerals compare lexicographically exactly as the
numbers they denote. -/
lemma padDigits_lt_iff :
    ∀ (k a b : Nat), a < 10 ^ k → b < 10 ^ k →
      (List.Lex (· < ·) (padDigits k a) (padDigits k b) ↔ a < b) := by
  intro k
  induction k with
  | zero =>
    intro a b ha hb
    interval_cases a
    interval_cases b
    simp [padDigits, List.Lex.not_nil_right]
  | succ k ih =>
    intro a b ha hb
    have hq : 0 < 10 ^ k := Nat.pos_pow_of_pos k (by norm_num)
    have hamod : a % 10 ^ k < 10 ^ k := Nat.mod_lt _ hq
    have hbmod : b % 10 ^ k < 10 ^ k := Nat.mod_lt _ hq
    rw [padDigits, padDigits, lex_cons_iff,
      digitChar_lt_iff _ (div_pow_le_nine ha) _ (div_pow_le_nine hb),
      digitChar_inj _ (div_pow_le_nine ha) _ (div_pow_le_nine hb),
      ih _ _ hamod hbmod]
    conv_rhs => rw [← Nat.div_add_mod a (10 ^ k), ← Nat.div_add_mod b (10 ^ k)]
    rw [Nat.mul_comm (10 ^ k) (a / 10 ^ k), Nat.mul_comm (10 ^ k) (b / 10 ^ k),
      decomp_lt_iff hamod hbmod]

lemma padDigits_eq_iff :
    ∀ (k a b : Nat), a < 10 ^ k → b < 10 ^ k →
      (padDigits k a = padDigits k b ↔ a = b) := by
  intro k
  induction k with
  | zero =>
    intro a b ha hb
    interval_cases a
    interval_cases b
    simp [padDigits]
  | succ k ih =>
    intro a b ha hb
    have hq : 0 < 10 ^ k := Nat.pos_pow_of_pos k (by norm_num)
    have hamod : a % 10 ^ k < 10 ^ k := Nat.mod_lt _ hq
    have hbmod : b % 10 ^ k < 10 ^ k := Nat.mod_lt _ hq
    rw [padDigits, padDigits, List.cons.injEq,
      digitChar_inj _ (div_pow_le_nine ha) _ (div_pow_le_nine hb),
      ih _ _ hamod hbmod]
    constructor
    · rintro ⟨h1, h2⟩
      calc a = 10 ^ k * (a / 10 ^ k) + a % 10 ^ k := (Nat.div_add_mod a _).symm
        _ = 10 ^ k * (b / 10 ^ k) + b % 10 ^ k := by rw [h1, h2]
        _ = b := Nat.div_add_mod b _
    · rintro rfl
      exact ⟨rfl, rfl⟩

lemma string_lt_iff_lex (l1 l2 : List Char) :
    (String.mk l1 < String.mk l2) ↔ List.Lex (· < ·) l1 l2 := by
  rw [String.lt_iff_toList_lt]
  exact Iff.rfl

lemma lex_sep (c : Char) (r1 r2 : List Char) :
    List.Lex (· < ·) (c :: r1) (c :: r2) ↔ List.Lex (· < ·) r1 r2 := by
  rw [lex_cons_iff]
  simp [lt_irrefl]

/-- One padded field followed by a common separator: comparison is the
field's, then the tail's. -/
lemma seg_iff {k a b : Nat} (ha : a < 10 ^ k) (hb : b < 10 ^ k) {c : Char}
    {r1 r2 : List Char} :
    List.Lex (· < ·) (padDigits k a ++ c :: r1) (padDigits k b ++ c :: r2) ↔
      a < b ∨ (a = b ∧ List.Lex (· < ·) r1 r2) := by
  rw [lex_append_iff _ _ _ _ (by rw [padDigits_length, padDigits_length]),
    padDigits_lt_iff _ _ _ ha hb, padDigits_eq_iff _ _ _ ha hb, lex_sep]

/-- The final padded field followed by the common extension: comparison is
exactly the field's. -/
lemma seg_last_iff {k a b : Nat} (ha : a < 10 ^ k) (hb : b < 10 ^ k)
    {ext : List Char} :
    List.Lex (· < ·) (padDigits k a ++ ext) (padDigits k b ++ ext) ↔ a < b := by
  rw [lex_append_iff _ _ _ _ (by rw [padDigits_length, padDigits_length]),
    padDigits_lt_iff _ _ _ ha hb, padDigits_eq_iff _ _ _ ha hb]
  simp [lex_irrefl]

lemma strftime_name_append (t : Timestamp) (ext : List Char) :
    strftime_name t ++ ext =
      padDigits 4 t.year ++ '-' :: (padDigits 2 t.month ++ '-' ::
        (padDigits 2 t.day ++ ' ' :: (padDigits 2 t.hour ++ '.' ::
          (padDigits 2 t.minute ++ '.' :: (padDigits 2 t.second ++ ext))))) := by
  simp [strftime_name, pad4, pad2, List.append_assoc]

lemma daysInMonth_le (y m : Nat) : daysInMonth y m ≤ 31 := by
  unfold daysInMonth
  split_ifs <;> omega

/-- The field bounds guaranteed by `datetime` validity, in the powers-of-ten
form the padding lemmas use. -/
lemma valid_bounds (t : Timestamp) (h : t.valid = true) :
    t.year < 10 ^ 4 ∧ t.month < 10 ^ 2 ∧ t.day < 10 ^ 2 ∧
      t.hour < 10 ^ 2 ∧ t.minute < 10 ^ 2 ∧ t.second < 10 ^ 2 := by
  have hd := daysInMonth_le t.year t.month
  simp only [Timestamp.valid, Bool.and_eq_true, decide_eq_true_eq] at h
  have h4 : (10 : Nat) ^ 4 = 10000 := by norm_num
  have h2 : (10 : Nat) ^ 2 = 100 := by norm_num
  omega

lemma name_lex_iff (t1 t2 : Timestamp) (ext : List Char)
    (h1 : t1.valid = true) (h2 : t2.valid = true) :
    List.Lex (· < ·) (strftime_name t1 ++ ext) (strftime_name t2 ++ ext) ↔
      tsLt t1 t2 := by
  obtain ⟨hy1, hm1, hd1, hh1, hn1, hs1⟩ := valid_bounds t1 h1
  obtain ⟨hy2, hm2, hd2, hh2, hn2, hs2⟩ := valid_bounds t2 h2
  rw [strftime_name_append, strftime_name_append, seg_iff hy1 hy2,
    seg_iff hm1 hm2, seg_iff hd1 hd2, seg_iff hh1 hh2, seg_iff hn1 hn2,
    seg_last_iff hs1 hs2]
  exact Iff.rfl

/-! ## Claims C1 and C4: the filename parser -/

lemma mkDatetime_eta {t : Timestamp} (h : t.valid = true) :
    mkDatetime t.year t.month t.day t.hour t.minute t.second = some t := by
  simp [mkDatetime, h]

lemma mkDatetime_eta_invalid {t : Timestamp} (h : t.valid = false) :
    mkDatetime t.year t.month t.day t.hour t.minute t.second = none := by
  simp [mkDatetime, h]

/-- C1 (counterexample): a filename that contains a valid `\d{8}_\d{6}`
substring for which the parser nevertheless returns no timestamp at all —
`re.search` finds only the leftmost match (`99999999_999999`, month 99),
whose failure falls through to pattern B, which finds no 14-digit run. -/
theorem patternA_anywhere_cex :
    hasValidA "99999999_999999x20230809_162453".data = true ∧
    parse_date_from_filename "99999999_999999x20230809_162453" = none := by
  constructor
  · decide
  · decide

/-- C1 (amended): if the leftmost `\d{8}_\d{6}` match of the stem has fields
forming a valid calendar date-time, the parser returns exactly the timestamp
embedded in those digits (the match may start anywhere in the string). -/
theorem patternA_leftmost_resolves (fn : String) (p1 p2 : List Char)
    (h : searchA fn.data = some (p1, p2))
    (hv : (fieldsA p1 p2).valid = true) :
    parse_date_from_filename fn = some (fieldsA p1 p2) := by
  simp only [parse_date_from_filename, h, mkDatetime_eta hv]

theorem patternA_leftmost_resolves_witness :
    searchA "IMG_20230809_162453".data = some ("20230809".data, "162453".data) ∧
    parse_date_from_filename "IMG_20230809_162453" =
      some (fieldsA "20230809".data "162453".data) :=
  ⟨by decide, patternA_leftmost_resolves "IMG_20230809_162453" _ _ (by decide) (by decide)⟩

/-- C4 (counterexample): the leftmost `\d{8}_\d{6}` match is invalid
(month 13) and the string contains a 14-digit run with valid fields
(`20230809162453`), yet the parser returns nothing: pattern B also takes only
its leftmost match, here the invalid run `99999999999999`. -/
theorem patternB_fallthrough_cex :
    searchA "20231301_162453_99999999999999_20230809162453".data =
      some ("20231301".data, "162453".data) ∧
    (fieldsA "20231301".data "162453".data).valid = false ∧
    hasValidB "20231301_162453_99999999999999_20230809162453".data = true ∧
    parse_date_from_filename "20231301_162453_99999999999999_20230809162453" = none := by
  refine ⟨by decide, by decide, by decide, by decide⟩

/-- C4 (amended): when the leftmost `\d{8}_\d{6}` match has out-of-range
fields, the parser falls through to pattern B, and if the leftmost 14-digit
run has valid fields it returns that run's interpretation — pattern A failure
does not prevent trying pattern B. -/
theorem patternB_fallthrough_leftmost (fn : String) (p1 p2 ds : List Char)
    (hA : searchA fn.data = some (p1, p2))
    (hAv : (fieldsA p1 p2).valid = false)
    (hB : searchB fn.data = some ds)
    (hBv : (fieldsB ds).valid = true) :
    parse_date_from_filename fn = some (fieldsB ds) := by
  simp only [parse_date_from_filename, hA, hB, mkDatetime_eta_invalid hAv,
    mkDatetime_eta hBv]

theorem patternB_fallthrough_leftmost_witness :
    searchA "20231301_162453_20230809162453".data = some ("20231301".data, "162453".data) ∧
    searchB "20231301_162453_20230809162453".data = some ("20230809162453".data) ∧
    parse_date_from_filename "20231301_162453_20230809162453" =
      some (fieldsB "20230809162453".data) :=
  ⟨by decide, by decide,
    patternB_fallthrough_leftmost "20231301_162453_20230809162453"
      "20231301".data "162453".data "20230809162453".data
      (by decide) (by decide) (by decide) (by decide)⟩

/-! ## Claim C2: lexicographic order of generated names -/

/-- C2: the generated destination filename is a monotone embedding of
capture timestamps: for valid timestamps and a fixed extension, `t1` is
chronologically before `t2` iff the generated name for `t1` sorts
lexicographically before the generated name for `t2` (the format is
fixed-width zero-padded `YYYY-MM-DD HH.MM.SS` plus the extension). -/
theorem generated_name_monotone (t1 t2 : Timestamp) (ext : String)
    (h1 : t1.valid = true) (h2 : t2.valid = true) :
    tsLt t1 t2 ↔ generate_new_file_name t1 ext < generate_new_file_name t2 ext := by
  unfold generate_new_file_name
  rw [string_lt_iff_lex, name_lex_iff t1 t2 ext.data h1 h2]

theorem generated_name_monotone_witness :
    generate_new_file_name ⟨2022, 12, 31, 23, 59, 59⟩ ".jpg" <
      generate_new_file_name ⟨2023, 1, 1, 0, 0, 0⟩ ".jpg" :=
  (generated_name_monotone ⟨2022, 12, 31, 23, 59, 59⟩ ⟨2023, 1, 1, 0, 0, 0⟩ ".jpg"
    (by decide) (by decide)).mp (by decide)

/-! ## Claim C5: normalization of the probe creation time -/

/-- The 19-character `YYYY-MM-DDTHH:MM:SS` prefix of a probe value carrying
the fields of `t`. -/
def probeBase (t : Timestamp) : List Char :=
  padDigits 4 t.year ++ '-' :: (padDigits 2 t.month ++ '-' ::
    (padDigits 2 t.day ++ 'T' :: (padDigits 2 t.hour ++ ':' ::
      (padDigits 2 t.minute ++ ':' :: padDigits 2 t.second))))

/-- The 19-character `YYYY-MM-DD HH:MM:SS` string `strptime` expects, carrying
the fields of `t`. -/
def strptimeBase (t : Timestamp) : List Char :=
  padDigits 4 t.year ++ '-' :: (padDigits 2 t.month ++ '-' ::
    (padDigits 2 t.day ++ ' ' :: (padDigits 2 t.hour ++ ':' ::
      (padDigits 2 t.minute ++ ':' :: padDigits 2 t.second))))

/-- A probe value of the documented shape: `YYYY-MM-DDTHH:MM:SS`, optionally
followed by fractional seconds (a dot and further characters) and a trailing
`Z` UTC marker. -/
def creationShape (t : Timestamp) (frac : Option (List Char)) (z : Bool) : String :=
  ⟨probeBase t ++
    ((match frac with
      | none => []
      | some ds => '.' :: ds) ++
     (if z then ['Z'] else []))⟩

example : creationShape ⟨2023, 8, 9, 16, 24, 53⟩ (some "000000".data) true =
    "2023-08-09T16:24:53.000000Z" := by decide

lemma digitChar_toNat : ∀ n ≤ 9, (digitChar n).toNat = 48 + n := by decide

lemma foldl_digits_acc (l : List Char) :
    ∀ acc : Nat, l.foldl (fun n c => n * 10 + (c.toNat - 48)) acc =
      acc * 10 ^ l.length + l.foldl (fun n c => n * 10 + (c.toNat - 48)) 0 := by
  induction l with
  | nil => intro acc; simp
  | cons c cs ih =>
    intro acc
    rw [List.foldl_cons, List.foldl_cons, ih (acc * 10 + (c.toNat - 48)),
      ih (0 * 10 + (c.toNat - 48)), List.length_cons]
    ring

/-- Round trip: the zero-padded rendering of `n` reads back as `n`. -/
lemma toNat_padDigits : ∀ (k n : Nat), n < 10 ^ k → toNatDigits (padDigits k n) = n := by
  intro k
  induction k with
  | zero =>
    intro n hn
    interval_cases n
    rfl
  | succ k ih =>
    intro n hn
    have hq : 0 < 10 ^ k := Nat.pos_pow_of_pos k (by norm_num)
    have h9 : n / 10 ^ k ≤ 9 := div_pow_le_nine hn
    have hmod : n % 10 ^ k < 10 ^ k := Nat.mod_lt _ hq
    have hrec := ih (n % 10 ^ k) hmod
    unfold toNatDigits at hrec ⊢
    rw [padDigits, List.foldl_cons, foldl_digits_acc, hrec, padDigits_length]
    show (0 * 10 + ((digitChar (n / 10 ^ k)).toNat - 48)) * 10 ^ k + n % 10 ^ k = n
    rw [digitChar_toNat _ h9]
    have h48 : ∀ x : Nat, 0 * 10 + (48 + x - 48) = x := fun x => by omega
    rw [h48, Nat.mul_comm]
    exact Nat.div_add_mod n (10 ^ k)

lemma padDigits_all_isDigit : ∀ (k n : Nat), n < 10 ^ k →
    (padDigits k n).all Char.isDigit = true := by
  intro k
  induction k with
  | zero => intro n hn; rfl
  | succ k ih =>
    intro n hn
    have hq : 0 < 10 ^ k := Nat.pos_pow_of_pos k (by norm_num)
    rw [padDigits, List.all_cons, Bool.and_eq_true]
    exact ⟨digitChar_isDigit _ (div_pow_le_nine hn), ih _ (Nat.mod_lt _ hq)⟩

lemma isDigit_ne_Z {c : Char} (h : c.isDigit = true) : ¬ c = 'Z' := by
  intro he
  subst he
  exact absurd h (by decide)

lemma isDigit_ne_T {c : Char} (h : c.isDigit = true) : ¬ c = 'T' := by
  intro he
  subst he
  exact absurd h (by decide)

lemma mem_padDigits_isDigit {k n : Nat} (hn : n < 10 ^ k) {c : Char}
    (hc : c ∈ padDigits k n) : c.isDigit = true :=
  List.all_eq_true.mp (padDigits_all_isDigit k n hn) c hc

lemma pad2_explicit (n : Nat) :
    padDigits 2 n = [digitChar (n / 10), digitChar (n % 10)] := by
  norm_num [padDigits]

lemma pad4_explicit (n : Nat) : padDigits 4 n =
    [digitChar (n / 1000), digitChar (n % 1000 / 100),
     digitChar (n % 1000 % 100 / 10), digitChar (n % 1000 % 100 % 10)] := by
  norm_num [padDigits]

/-- The `.replace('Z', '')` step leaves the 19-character prefix unchanged:
it contains only digits and the separators of the shape, never `Z`. -/
lemma probeBase_filter (t : Timestamp) (hv : t.valid = true) :
    (probeBase t).filter (fun c => c ≠ 'Z') = probeBase t := by
  obtain ⟨hy, hm, hd, hh, hn, hs⟩ := valid_bounds t hv
  apply List.filter_eq_self.mpr
  intro a ha
  simp only [probeBase, List.mem_append, List.mem_cons] at ha
  rcases ha with h | h | h | h | h | h | h | h | h | h | h <;>
    first
      | (subst h; decide)
      | simpa using isDigit_ne_Z (mem_padDigits_isDigit hy h)
      | simpa using isDigit_ne_Z (mem_padDigits_isDigit hm h)
      | simpa using isDigit_ne_Z (mem_padDigits_isDigit hd h)
      | simpa using isDigit_ne_Z (mem_padDigits_isDigit hh h)
      | simpa using isDigit_ne_Z (mem_padDigits_isDigit hn h)
      | simpa using isDigit_ne_Z (mem_padDigits_isDigit hs h)

lemma map_T_eq_self {l : List Char} (h : ∀ c ∈ l, ¬ c = 'T') :
    l.map (fun c => if c = 'T' then ' ' else c) = l := by
  induction l with
  | nil => rfl
  | cons c cs ih =>
    simp only [List.map_cons]
    rw [if_neg (h c (by simp)), ih (fun x hx => h x (by simp [hx]))]

/-- The `.replace('T', ' ')` step turns the 19-character prefix into the
`strptime` shape: only the single separator `T` is a `T`. -/
lemma probeBase_map (t : Timestamp) (hv : t.valid = true) :
    (probeBase t).map (fun c => if c = 'T' then ' ' else c) = strptimeBase t := by
  obtain ⟨hy, hm, hd, hh, hn, hs⟩ := valid_bounds t hv
  have m4 := map_T_eq_self (fun c hc => isDigit_ne_T (mem_padDigits_isDigit hy hc))
  have m2m := map_T_eq_self (fun c hc => isDigit_ne_T (mem_padDigits_isDigit hm hc))
  have m2d := map_T_eq_self (fun c hc => isDigit_ne_T (mem_padDigits_isDigit hd hc))
  have m2h := map_T_eq_self (fun c hc => isDigit_ne_T (mem_padDigits_isDigit hh hc))
  have m2n := map_T_eq_self (fun c hc => isDigit_ne_T (mem_padDigits_isDigit hn hc))
  have m2s := map_T_eq_self (fun c hc => isDigit_ne_T (mem_padDigits_isDigit hs hc))
  unfold probeBase strptimeBase
  simp only [List.map_append, List.map_cons]
  rw [m4, m2m, m2d, m2h, m2n, m2s]
  simp

lemma strptimeBase_length (t : Timestamp) : (strptimeBase t).length = 19 := by
  simp [strptimeBase, padDigits_length]

/-- The full normalization: strip `Z`, turn `T` into a space, truncate to 19
characters.  The optional fractional part and UTC marker never survive the
truncation, whatever they contain. -/
lemma normalize_creationShape (t : Timestamp) (frac : Option (List Char)) (z : Bool)
    (hv : t.valid = true) :
    normalize_creation (creationShape t frac z) = ⟨strptimeBase t⟩ := by
  apply String.ext
  show (((probeBase t ++ _).filter (fun c => c ≠ 'Z')).map
      (fun c => if c = 'T' then ' ' else c)).take 19 = strptimeBase t
  rw [List.filter_append, probeBase_filter t hv, List.map_append, probeBase_map t hv,
    ← strptimeBase_length t, List.take_left]

lemma strptime19_explicit (y1 y2 y3 y4 m1 m2 d1 d2 h1 h2 n1 n2 s1 s2 : Char)
    (hall : ([y1, y2, y3, y4, m1, m2, d1, d2, h1, h2, n1, n2, s1, s2]).all
      Char.isDigit = true) :
    strptime19 ⟨[y1, y2, y3, y4, '-', m1, m2, '-', d1, d2, ' ',
        h1, h2, ':', n1, n2, ':', s1, s2]⟩ =
      mkDatetime (toNatDigits [y1, y2, y3, y4]) (toNatDigits [m1, m2])
        (toNatDigits [d1, d2]) (toNatDigits [h1, h2]) (toNatDigits [n1, n2])
        (toNatDigits [s1, s2]) := by
  simp [strptime19, hall]

/-- Parsing the normalized 19-character value recovers exactly the fields. -/
lemma strptime19_strptimeBase (t : Timestamp) (hv : t.valid = true) :
    strptime19 ⟨strptimeBase t⟩ = some t := by
  obtain ⟨hy, hm, hd, hh, hn, hs⟩ := valid_bounds t hv
  have e4 : (10 : Nat) ^ 4 = 10000 := by norm_num
  have e2 : (10 : Nat) ^ 2 = 100 := by norm_num
  have hall : ([digitChar (t.year / 1000), digitChar (t.year % 1000 / 100),
      digitChar (t.year % 1000 % 100 / 10), digitChar (t.year % 1000 % 100 % 10),
      digitChar (t.month / 10), digitChar (t.month % 10),
      digitChar (t.day / 10), digitChar (t.day % 10),
      digitChar (t.hour / 10), digitChar (t.hour % 10),
      digitChar (t.minute / 10), digitChar (t.minute % 10),
      digitChar (t.second / 10), digitChar (t.second % 10)]).all Char.isDigit = true := by
    simp only [List.all_cons, List.all_nil, Bool.and_eq_true, and_true]
    exact ⟨digitChar_isDigit _ (by omega), digitChar_isDigit _ (by omega),
      digitChar_isDigit _ (by omega), digitChar_isDigit _ (by omega),
      digitChar_isDigit _ (by omega), digitChar_isDigit _ (by omega),
      digitChar_isDigit _ (by omega), digitChar_isDigit _ (by omega),
      digitChar_isDigit _ (by omega), digitChar_isDigit _ (by omega),
      digitChar_isDigit _ (by omega), digitChar_isDigit _ (by omega),
      digitChar_isDigit _ (by omega), digitChar_isDigit _ (by omega)⟩
  have hbase : strptimeBase t =
      [digitChar (t.year / 1000), digitChar (t.year % 1000 / 100),
       digitChar (t.year % 1000 % 100 / 10), digitChar (t.year % 1000 % 100 % 10), '-',
       digitChar (t.month / 10), digitChar (t.month % 10), '-',
       digitChar (t.day / 10), digitChar (t.day % 10), ' ',
       digitChar (t.hour / 10), digitChar (t.hour % 10), ':',
       digitChar (t.minute / 10), digitChar (t.minute % 10), ':',
       digitChar (t.second / 10), digitChar (t.second % 10)] := by
    simp [strptimeBase, pad4_explicit, pad2_explicit]
  rw [hbase, strptime19_explicit _ _ _ _ _ _ _ _ _ _ _ _ _ _ hall,
    show [digitChar (t.year / 1000), digitChar (t.year % 1000 / 100),
        digitChar (t.year % 1000 % 100 / 10), digitChar (t.year % 1000 % 100 % 10)] =
      padDigits 4 t.year from (pad4_explicit _).symm,
    show [digitChar (t.month / 10), digitChar (t.month % 10)] = padDigits 2 t.month from
      (pad2_explicit _).symm,
    show [digitChar (t.day / 10), digitChar (t.day % 10)] = padDigits 2 t.day from
      (pad2_explicit _).symm,
    show [digitChar (t.hour / 10), digitChar (t.hour % 10)] = padDigits 2 t.hour from
      (pad2_explicit _).symm,
    show [digitChar (t.minute / 10), digitChar (t.minute % 10)] = padDigits 2 t.minute from
      (pad2_explicit _).symm,
    show [digitChar (t.second / 10), digitChar (t.second % 10)] = padDigits 2 t.second from
      (pad2_explicit _).symm,
    toNat_padDigits 4 t.year hy, toNat_padDigits 2 t.month hm,
    toNat_padDigits 2 t.day hd, toNat_padDigits 2 t.hour hh,
    toNat_padDigits 2 t.minute hn, toNat_padDigits 2 t.second hs]
  exact mkDatetime_eta hv

lemma creationShape_ne_empty (t : Timestamp) (frac : Option (List Char)) (z : Bool) :
    ¬ creationShape t frac z = "" := by
  intro he
  have hdat := congrArg String.data he
  simp [creationShape, probeBase, pad4_explicit] at hdat

/-- C5: the video reader's normalization — strip the UTC marker, turn the
`T` separator into a space, truncate to 19 characters — maps every probe
value of the shape `YYYY-MM-DDTHH:MM:SS[.fraction][Z]` with valid calendar
fields to exactly the timestamp with those fields. -/
theorem creation_time_normalization (t : Timestamp) (frac : Option (List Char))
    (z : Bool) (hv : t.valid = true) :
    get_video_ffprobe_date ⟨0, some (creationShape t frac z)⟩ = some t := by
  simp only [get_video_ffprobe_date]
  rw [if_neg (by norm_num), if_neg (creationShape_ne_empty t frac z),
    normalize_creationShape t frac z hv, strptime19_strptimeBase t hv]

/-- C5 witness: the spec's concrete probe value. -/
theorem creation_time_normalization_witness :
    creationShape ⟨2023, 8, 9, 16, 24, 53⟩ (some "000000".data) true =
      "2023-08-09T16:24:53.000000Z" ∧
    get_video_ffprobe_date ⟨0, some "2023-08-09T16:24:53.000000Z"⟩ =
      some ⟨2023, 8, 9, 16, 24, 53⟩ := by
  have h1 : creationShape ⟨2023, 8, 9, 16, 24, 53⟩ (some "000000".data) true =
      "2023-08-09T16:24:53.000000Z" := by decide
  exact ⟨h1, h1 ▸ creation_time_normalization ⟨2023, 8, 9, 16, 24, 53⟩
    (some "000000".data) true (by decide)⟩

/-! ## Claims C3 and C6–C10: placement, routing and traversal -/

/-- Shared placement fact: a file whose date resolution succeeds is moved to
`ORGANIZED_FOLDER/<%Y of ts>/<generated name with the file's splitext
extension>`. -/
lemma process_file_resolved (cfg : Config) (f : MFile) (ts : Timestamp)
    (h : resolutionOf f = some ts) :
    (process_file cfg f).action =
      .moveTo (joinPath (joinPath cfg.organized (strftimeY ts))
        (generate_new_file_name ts (extOf f.path))) := by
  unfold resolutionOf at h
  unfold process_file
  by_cases himg : endsWithAny (lowerStr f.path) imageSuffixes = true
  · rw [if_pos himg] at h ⊢
    unfold organize_images
    rw [h]
  · rw [if_neg himg] at h ⊢
    by_cases hvid : endsWithAny (lowerStr f.path) videoSuffixes = true
    · rw [if_pos hvid] at h ⊢
      unfold organize_videos
      rw [h]
    · rw [if_neg hvid] at h
      exact absurd h (by simp)

/-- Shared placement fact: a file whose date resolution fails is skipped with
destination `SKIPPED_FOLDER/<basename>`. -/
lemma process_file_unresolved (cfg : Config) (f : MFile)
    (h : resolutionOf f = none) :
    ∃ reason, (process_file cfg f).action =
      .skipped (joinPath cfg.skipped (basename f.path)) reason := by
  unfold resolutionOf at h
  unfold process_file
  by_cases himg : endsWithAny (lowerStr f.path) imageSuffixes = true
  · rw [if_pos himg] at h ⊢
    unfold organize_images
    rw [h]
    exact ⟨"No date from EXIF or filename", rfl⟩
  · rw [if_neg himg] at h ⊢
    by_cases hvid : endsWithAny (lowerStr f.path) videoSuffixes = true
    · rw [if_pos hvid] at h ⊢
      unfold organize_videos
      rw [h]
      exact ⟨"No date from ffprobe or filename", rfl⟩
    · rw [if_neg hvid]
      exact ⟨"Unsupported file type", rfl⟩

/-- C6: a file whose date resolves to `ts` is moved to
`organized-root/<4-digit year of ts>/<generated name>`; the year comes from
the resolved timestamp, and the result never depends on the file's
filesystem modification time. -/
theorem destination_year_partition (cfg : Config) (f : MFile) (ts : Timestamp)
    (h : resolutionOf f = some ts) :
    (process_file cfg f).action =
      .moveTo (joinPath (joinPath cfg.organized (strftimeY ts))
        (generate_new_file_name ts (extOf f.path))) ∧
    ∀ m : Nat, process_file cfg { f with mtime := m } = process_file cfg f := by
  refine ⟨process_file_resolved cfg f ts h, fun m => ?_⟩
  cases f
  rfl

theorem destination_year_partition_witness :
    resolutionOf ⟨"/src/a/photo.jpg", some ⟨2023, 8, 9, 16, 24, 53⟩, ⟨1, none⟩, 7⟩ =
      some ⟨2023, 8, 9, 16, 24, 53⟩ ∧
    (process_file ⟨"/src", "/org", "/skip"⟩
        ⟨"/src/a/photo.jpg", some ⟨2023, 8, 9, 16, 24, 53⟩, ⟨1, none⟩, 7⟩).action =
      .moveTo (joinPath (joinPath "/org" (strftimeY ⟨2023, 8, 9, 16, 24, 53⟩))
        (generate_new_file_name ⟨2023, 8, 9, 16, 24, 53⟩
          (extOf "/src/a/photo.jpg"))) :=
  ⟨by decide,
    (destination_year_partition ⟨"/src", "/org", "/skip"⟩
      ⟨"/src/a/photo.jpg", some ⟨2023, 8, 9, 16, 24, 53⟩, ⟨1, none⟩, 7⟩
      ⟨2023, 8, 9, 16, 24, 53⟩ (by decide)).1⟩

/-- C7 (counterexample): a `.JPG` file is classified by the lower-cased path
but renamed with its original upper-case extension: the destination name ends
in `.JPG`, not in the lower-cased `.jpg` the claim asserts. -/
theorem extension_not_lowercased_cex :
    extOf "/src/IMG_20230809_162453.JPG" = ".JPG" ∧
    lowerStr (extOf "/src/IMG_20230809_162453.JPG") = ".jpg" ∧
    (process_file ⟨"/src", "/org", "/skip"⟩
        ⟨"/src/IMG_20230809_162453.JPG", none, ⟨1, none⟩, 0⟩).action =
      .moveTo "/org/2023/2023-08-09 16.24.53.JPG" ∧
    (".JPG" : String) ≠ ".jpg" :=
  ⟨by decide, by decide, by decide, by decide⟩

/-- C7 (amended): classification uses the lower-cased path, but the extension
appended to the generated destination filename is `os.path.splitext`'s
extension of the original path with its case preserved, not lower-cased. -/
theorem extension_original_case (cfg : Config) (f : MFile) (ts : Timestamp)
    (h : resolutionOf f = some ts) :
    ∃ folder, (process_file cfg f).action =
      .moveTo (joinPath folder ⟨strftime_name ts ++ (extOf f.path).data⟩) :=
  ⟨joinPath cfg.organized (strftimeY ts), process_file_resolved cfg f ts h⟩

theorem extension_original_case_witness :
    resolutionOf ⟨"/src/clip.MOV", none, ⟨0, some "2023-08-09T16:24:53.000000Z"⟩, 3⟩ =
      some ⟨2023, 8, 9, 16, 24, 53⟩ ∧
    ∃ folder,
      (process_file ⟨"/src", "/org", "/skip"⟩
          ⟨"/src/clip.MOV", none, ⟨0, some "2023-08-09T16:24:53.000000Z"⟩, 3⟩).action =
        .moveTo (joinPath folder ⟨strftime_name ⟨2023, 8, 9, 16, 24, 53⟩ ++
          (extOf "/src/clip.MOV").data⟩) :=
  ⟨by decide,
    extension_original_case ⟨"/src", "/org", "/skip"⟩
      ⟨"/src/clip.MOV", none, ⟨0, some "2023-08-09T16:24:53.000000Z"⟩, 3⟩
      ⟨2023, 8, 9, 16, 24, 53⟩ (by decide)⟩

/-- C8 (counterexample): a file named `.jpg` — a hidden file whose
`os.path.splitext` extension is empty, so its lower-cased extension is in
neither fixed set — is nevertheless dispatched to `organize_images` by the
`endswith` test, invoking the image metadata reader, and is skipped (when no
date is found) with the no-date reason rather than the unsupported-type
reason. -/
theorem unsupported_extension_cex :
    lowerStr (extOf "/src/.jpg") = "" ∧
    (imageSuffixes.contains "" || videoSuffixes.contains "") = false ∧
    (process_file ⟨"/src", "/org", "/skip"⟩ ⟨"/src/.jpg", none, ⟨1, none⟩, 0⟩).exifCalled
      = true ∧
    (process_file ⟨"/src", "/org", "/skip"⟩ ⟨"/src/.jpg", none, ⟨1, none⟩, 0⟩).action =
      .skipped "/skip/.jpg" "No date from EXIF or filename" :=
  ⟨by decide, by decide, by decide, by decide⟩

/-- C8 (amended): a file whose lower-cased path ends with none of the image
suffixes `.jpg .jpeg .png .gif .heic` and none of the video suffixes
`.mp4 .mov .avi .mkv` invokes neither metadata reader and is moved to the
skip location with reason `"Unsupported file type"`. -/
theorem unsupported_suffix_skipped (cfg : Config) (f : MFile)
    (h1 : endsWithAny (lowerStr f.path) imageSuffixes = false)
    (h2 : endsWithAny (lowerStr f.path) videoSuffixes = false) :
    process_file cfg f =
      ⟨.skipped (joinPath cfg.skipped (basename f.path)) "Unsupported file type",
        false, false⟩ := by
  unfold process_file
  rw [if_neg (by simp [h1]), if_neg (by simp [h2])]
  rfl

theorem unsupported_suffix_skipped_witness :
    endsWithAny (lowerStr "/src/notes.txt") imageSuffixes = false ∧
    endsWithAny (lowerStr "/src/notes.txt") videoSuffixes = false ∧
    process_file ⟨"/src", "/org", "/skip"⟩ ⟨"/src/notes.txt", none, ⟨1, none⟩, 0⟩ =
      ⟨.skipped (joinPath "/skip" (basename "/src/notes.txt")) "Unsupported file type",
        false, false⟩ :=
  ⟨by decide, by decide,
    unsupported_suffix_skipped ⟨"/src", "/org", "/skip"⟩
      ⟨"/src/notes.txt", none, ⟨1, none⟩, 0⟩ (by decide) (by decide)⟩

/-- C9: a file whose date resolution ends unresolved is moved into the skip
location with its original filename — the basename of its path — preserved
unchanged. -/
theorem unresolved_moved_with_original_name (cfg : Config) (f : MFile)
    (h : resolutionOf f = none) :
    ∃ reason, (process_file cfg f).action =
      .skipped (joinPath cfg.skipped (basename f.path)) reason :=
  process_file_unresolved cfg f h

theorem unresolved_moved_with_original_name_witness :
    resolutionOf ⟨"/src/d/holiday.png", none, ⟨1, none⟩, 0⟩ = none ∧
    ∃ reason,
      (process_file ⟨"/src", "/org", "/skip"⟩
          ⟨"/src/d/holiday.png", none, ⟨1, none⟩, 0⟩).action =
        .skipped (joinPath "/skip" (basename "/src/d/holiday.png")) reason :=
  ⟨by decide,
    unresolved_moved_with_original_name ⟨"/src", "/org", "/skip"⟩
      ⟨"/src/d/holiday.png", none, ⟨1, none⟩, 0⟩ (by decide)⟩

/-- C10: the skip destination depends only on the file's basename: two
distinct source paths with equal basenames are sent to the identical
destination `skip-root/<basename>`, so skipped files from different
directories collide at the same target. -/
theorem skip_destination_basename_only (cfg : Config) (p q reason1 reason2 : String)
    (_hpq : p ≠ q) (hb : basename p = basename q) :
    move_to_skipped cfg p reason1 =
      .skipped (joinPath cfg.skipped (basename p)) reason1 ∧
    move_to_skipped cfg p reason1 = move_to_skipped cfg q reason1 ∧
    (reason1 = reason2 → move_to_skipped cfg p reason1 = move_to_skipped cfg q reason2) := by
  refine ⟨rfl, by simp [move_to_skipped, hb], fun hr => by simp [move_to_skipped, hb, hr]⟩

theorem skip_destination_basename_only_witness :
    ("/src/a/x.txt" : String) ≠ "/src/b/x.txt" ∧
    basename "/src/a/x.txt" = basename "/src/b/x.txt" ∧
    move_to_skipped ⟨"/src", "/org", "/skip"⟩ "/src/a/x.txt" "No valid date found" =
      move_to_skipped ⟨"/src", "/org", "/skip"⟩ "/src/b/x.txt" "No valid date found" :=
  ⟨by decide, by decide,
    (skip_destination_basename_only ⟨"/src", "/org", "/skip"⟩ "/src/a/x.txt"
      "/src/b/x.txt" "No valid date found" "No valid date found"
      (by decide) (by decide)).2.1⟩

/-- C3 (counterexample): `main` performs no startup check of the source root.
With a non-existent source root the walk yields nothing, no file is
processed, and the run completes normally — there is no process-fatal
configuration error. -/
theorem no_startup_check_cex :
    (mainRun ⟨"/nowhere", "/org", "/skip"⟩
        ⟨false, [⟨"/nowhere/a.jpg", some ⟨2023, 8, 9, 16, 24, 53⟩, ⟨1, none⟩, 0⟩]⟩).completed
      = true ∧
    (mainRun ⟨"/nowhere", "/org", "/skip"⟩
        ⟨false, [⟨"/nowhere/a.jpg", some ⟨2023, 8, 9, 16, 24, 53⟩, ⟨1, none⟩, 0⟩]⟩).results
      = [] :=
  ⟨by decide, by decide⟩

/-- C3 (amended): a non-existent source root is never checked and is not
process-fatal: the traversal visits no files and the run completes normally;
no run of `main` fails fatally. -/
theorem missing_source_root_not_fatal (cfg : Config) (fs : SourceFS)
    (h : fs.rootExists = false) :
    mainRun cfg fs = ⟨[], true⟩ ∧ ∀ fs' : SourceFS, (mainRun cfg fs').completed = true := by
  refine ⟨?_, fun fs' => rfl⟩
  unfold mainRun
  rw [h]
  rfl

theorem missing_source_root_not_fatal_witness :
    mainRun ⟨"/missing", "/org", "/skip"⟩ ⟨false, []⟩ = ⟨[], true⟩ :=
  (missing_source_root_not_fatal ⟨"/missing", "/org", "/skip"⟩ ⟨false, []⟩ rfl).1
